import Mathlib

/-!
Shallow embedding of `lnd/handler.go` (package `lnd`) of the
ljightningparking repository: the invoice deduplication cache, the
`GetInvoice` issuance path, the per-invoice TTL reaper goroutine, the
settlement stream consumer `RunInvoiceChecker`, and `CheckInvoice`.

Go maps are embedded as association lists with unique keys (`lookupAL`,
`insertAL`, `eraseAL`); Go `int64` as `ℤ` (no claim depends on wrap-around
at 2^63); Go `float64` fee and price arithmetic as exact rationals (no
claim depends on rounding error); the Go `int64(...)` conversion as
truncation toward zero.  External effects are passed in as explicit
inputs: the result of `price.GetPrice("btceur")` is the `btcPrice`
argument (that function returns `-1` on any transport or parse failure),
and the outcome of the lnd HTTP issuance call is an `IssueOutcome`
argument.  The mutex-protected critical sections of the Go code are each
embedded as one atomic function on the cache state; interleavings of the
concurrent actors are modelled by composing these atomic functions in an
arbitrary order (`runRace` for two concurrent `GetInvoice` callers).
-/

/-- Association-list lookup, modelling Go map indexing `v, ok := m[k]`
with the `ok` flag as `Option`. -/
def lookupAL {α β : Type} [DecidableEq α] : List (α × β) → α → Option β
  | [], _ => none
  | (a, b) :: t, k => if k = a then some b else lookupAL t k

/-- Association-list removal of a key, modelling Go `delete(m, k)`. -/
def eraseAL {α β : Type} [DecidableEq α] : List (α × β) → α → List (α × β)
  | [], _ => []
  | (a, b) :: t, k => if a = k then eraseAL t k else (a, b) :: eraseAL t k

/-- Association-list overwrite, modelling Go map assignment `m[k] = v`. -/
def insertAL {α β : Type} [DecidableEq α] (l : List (α × β)) (k : α) (v : β) :
    List (α × β) :=
  (k, v) :: eraseAL l k

/-- `parking.Zone` from `parking/zone.go`; `Price` and `MaxTime` are Go
`float64` values, embedded as exact rationals. -/
structure Zone where
  Name : String
  Price : ℚ
  MaxTime : ℚ
deriving DecidableEq

/-- `Zone.GetParkingFee` from `parking/zone.go`:
`math.Min(float64(hours), z.MaxTime) * z.Price`. -/
def Zone.GetParkingFee (z : Zone) (hours : ℤ) : ℚ :=
  (if (hours : ℚ) ≤ z.MaxTime then (hours : ℚ) else z.MaxTime) * z.Price

/-- `lnd.InvoiceKey` from `lnd/handler.go`: the request fingerprint used
as the forward-map key; equality is structural, as for a Go map key. -/
structure InvoiceKey where
  Zone : Zone
  Plate : String
  Hours : ℤ
deriving DecidableEq

/-- `InvoiceKey.Message` from `lnd/handler.go`:
`fmt.Sprintf("%s %s %d", k.Zone.Name, k.Plate, k.Hours)`. -/
def InvoiceKey.Message (k : InvoiceKey) : String :=
  k.Zone.Name ++ " " ++ k.Plate ++ " " ++ toString k.Hours

/-- Go `int64(x)` conversion of a `float64`, embedded as truncation of a
rational toward zero (`Int.tdiv` truncates toward zero and `q.den > 0`). -/
def goInt64 (q : ℚ) : ℤ :=
  Int.tdiv q.num q.den

/-- `InvoiceKey.GetSatsToPay` from `lnd/handler.go`.  The result of the
external `price.GetPrice("btceur")` HTTP lookup is passed in as
`btcPrice`; that function returns `-1` on any transport or parse failure,
which this function turns into the `-1` sentinel. -/
def InvoiceKey.GetSatsToPay (k : InvoiceKey) (btcPrice : ℚ) : ℤ :=
  if btcPrice < 0 then -1
  else goInt64 (k.Zone.GetParkingFee k.Hours / btcPrice * (1 / 100000000))

/-- `lnd.Invoice` from `lnd/handler.go`.  The Go zero value `Invoice{}`
is `⟨"", 0⟩`. -/
structure Invoice where
  PaymentRequest : String
  Expiry : ℤ
deriving DecidableEq

/-- `lnd.RpcInvoice` from `lnd/handler.go`: the parsed lnd response. -/
structure RpcInvoice where
  PaymentRequest : String
  CreationDate : ℤ
  Expiry : ℤ
  State : String
deriving DecidableEq

/-- `lnd.RpcResponse` from `lnd/handler.go`.  `Error` is `interface{}` in
Go; only its nil test (`response.Error != nil`) matters, so it is an
`Option`. -/
structure RpcResponse where
  Error : Option String
  Result : RpcInvoice
deriving DecidableEq

/-- The `SETTLED` constant from `lnd/handler.go`. -/
def SETTLED : String := "SETTLED"

/-- `lnd.InvoiceCache` from `lnd/handler.go`: the two mirrored maps.  The
mutex is not part of the data; each lock-protected block of the Go code is
embedded as one atomic function on this state. -/
structure InvoiceCache where
  keyToInvoice : List (InvoiceKey × Invoice)
  invoiceToKey : List (String × InvoiceKey)
deriving DecidableEq

/-- Outcome of the lnd HTTP issuance sequence inside `GetInvoice`
(`http.NewRequest` / `httpClient.Do` / `ReadAll` / `json.Unmarshal`):
either a parsed `RpcInvoice`, or any failure — every failure branch in
the Go code calls `log.Fatalf`, which aborts the whole process. -/
inductive IssueOutcome where
  | ok (response : RpcInvoice)
  | fatal
deriving DecidableEq

/-- Result of one `GetInvoice` call.  `ret inv cache reaper` is a normal
return carrying the post-state of the two maps and, when a new invoice
was stored, the payment request handed to the spawned TTL-reaper
goroutine (which sleeps 300 s and then runs `reaperFire`); `fatalStop
cache` is a `log.Fatalf` process abort, with the cache state at the
moment of the abort. -/
inductive GetInvoiceResult where
  | ret (inv : Invoice) (cache : InvoiceCache) (reaper : Option String)
  | fatalStop (cache : InvoiceCache)
deriving DecidableEq

/-- The cache state after a `GetInvoice` call (for both result forms). -/
def GetInvoiceResult.cache : GetInvoiceResult → InvoiceCache
  | .ret _ c _ => c
  | .fatalStop c => c

/-- The part of `GetInvoice` (lnd/handler.go lines 119-169) that runs when
no live record was found: the `GetSatsToPay` guard, the lnd issuance
call, the locked double store, and the spawn of the reaper goroutine. -/
def GetInvoiceIssue (cache : InvoiceCache) (key : InvoiceKey) (now : ℤ)
    (btcPrice : ℚ) (issue : IssueOutcome) : GetInvoiceResult :=
  let satsToPay := key.GetSatsToPay btcPrice
  if satsToPay < 0 then
    GetInvoiceResult.ret ⟨"", 0⟩ cache none
  else
    match issue with
    | IssueOutcome.fatal => GetInvoiceResult.fatalStop cache
    | IssueOutcome.ok response =>
      let newInvoice : Invoice := ⟨response.PaymentRequest, now + 300⟩
      GetInvoiceResult.ret newInvoice
        ⟨insertAL cache.keyToInvoice key newInvoice,
         insertAL cache.invoiceToKey response.PaymentRequest key⟩
        (some response.PaymentRequest)

/-- `Handler.GetInvoice` from `lnd/handler.go`, run to completion without
interference (the concurrent interleavings of two callers are modelled
separately by `runRace`).  `now` is `time.Now().Unix()`. -/
def GetInvoice (cache : InvoiceCache) (zone : Zone) (plate : String)
    (hours now : ℤ) (btcPrice : ℚ) (issue : IssueOutcome) : GetInvoiceResult :=
  match lookupAL cache.keyToInvoice ⟨zone, plate, hours⟩ with
  | some inv =>
    if inv.Expiry > now then GetInvoiceResult.ret inv cache none
    else GetInvoiceIssue cache ⟨zone, plate, hours⟩ now btcPrice issue
  | none => GetInvoiceIssue cache ⟨zone, plate, hours⟩ now btcPrice issue

/-- `Handler.CheckInvoice` from `lnd/handler.go`: looks the payment
request up in the reverse map and returns `!ok`. -/
def CheckInvoice (cache : InvoiceCache) (paymentRequest : String) : Bool :=
  (lookupAL cache.invoiceToKey paymentRequest).isNone

/-- The body of the TTL-reaper goroutine spawned by `GetInvoice`
(lnd/handler.go lines 158-167), executed atomically under the cache
mutex after the 300 s sleep: look the goroutine's payment request up in
the reverse map and, if found, delete both entries.  The `Bool` records
whether the entry was found (the resolve side-effect happened). -/
def reaperFire (cache : InvoiceCache) (paymentRequest : String) :
    InvoiceCache × Bool :=
  match lookupAL cache.invoiceToKey paymentRequest with
  | some id =>
    (⟨eraseAL cache.keyToInvoice id, eraseAL cache.invoiceToKey paymentRequest⟩,
     true)
  | none => (cache, false)

/-- The settled-event critical section of `RunInvoiceChecker`
(lnd/handler.go lines 203-213), executed atomically under the cache
mutex: look the payment request up in the reverse map and, if found, send
the SMS built from the fingerprint and delete both entries.  The
`Option String` is the message handed to `sms.Send`, `none` when the
entry was not found and nothing is sent. -/
def settleResolve (cache : InvoiceCache) (paymentRequest : String) :
    InvoiceCache × Option String :=
  match lookupAL cache.invoiceToKey paymentRequest with
  | some key =>
    (⟨eraseAL cache.keyToInvoice key, eraseAL cache.invoiceToKey paymentRequest⟩,
     some key.Message)
  | none => (cache, none)

/-- One line read from the settlement feed by `RunInvoiceChecker`:
either a payload on which `json.Unmarshal` fails, or a parsed
`RpcResponse`. -/
inductive FeedMsg where
  | malformed
  | parsed (response : RpcResponse)
deriving DecidableEq

/-- One iteration of the `RunInvoiceChecker` read loop (lnd/handler.go
lines 186-218) on a successfully read line: a parse failure is skipped;
an upstream error field is logged and skipped; a non-`SETTLED` state is
skipped; a `SETTLED` state runs the critical section `settleResolve`.
The second component lists the messages handed to `sms.Send`. -/
def processMsg (c : InvoiceCache) (m : FeedMsg) : InvoiceCache × List String :=
  match m with
  | FeedMsg.malformed => (c, [])
  | FeedMsg.parsed response =>
    if response.Error.isSome then (c, [])
    else if response.Result.State ≠ SETTLED then (c, [])
    else
      match settleResolve c response.Result.PaymentRequest with
      | (c2, some msg) => (c2, [msg])
      | (c2, none) => (c2, [])

/-- `Handler.RunInvoiceChecker` from `lnd/handler.go`, restricted to its
read loop over the lines successfully read from the feed until EOF
(transport-level read failures are `log.Fatalf` and outside the loop
behaviour the claims are about).  Returns the final cache state and the
concatenated list of messages handed to `sms.Send`. -/
def RunInvoiceChecker (c : InvoiceCache) :
    List FeedMsg → InvoiceCache × List String
  | [] => (c, [])
  | m :: ms =>
    ((RunInvoiceChecker (processMsg c m).1 ms).1,
     (processMsg c m).2 ++ (RunInvoiceChecker (processMsg c m).1 ms).2)

/-- The mirror invariant of the two cache maps (spec section 3):
`forward[f].externalReference = r ⇔ reverse[r] = f` for the entries
present in the maps. -/
def Mirror (c : InvoiceCache) : Prop :=
  ∀ f r,
    (∃ inv, lookupAL c.keyToInvoice f = some inv ∧ inv.PaymentRequest = r) ↔
      lookupAL c.invoiceToKey r = some f

/-- The reference `ref` is absent from both maps: not a key of the
reverse map, and not the payment request of any forward-map record. -/
def RefGone (c : InvoiceCache) (ref : String) : Prop :=
  lookupAL c.invoiceToKey ref = none ∧
    ∀ f inv, lookupAL c.keyToInvoice f = some inv → inv.PaymentRequest ≠ ref

/-- Program counter of one `GetInvoice` caller in the two-caller
interleaving model.  `start`: before the locked read of the forward map;
`needIssue`: the locked read found no live record (the caller is about to
run `GetSatsToPay` and the lnd issuance call outside the mutex);
`gotResp`: holding the issuance response, before the locked double store;
`done`: returned. -/
inductive CallerPC where
  | start
  | needIssue
  | gotResp (paymentRequest : String)
  | done (ret : Invoice)
deriving DecidableEq

/-- State of two concurrent `GetInvoice` callers for the same key:
the shared cache, each caller's program counter, and the number of lnd
issuance calls made so far. -/
structure RaceState where
  cache : InvoiceCache
  pc1 : CallerPC
  pc2 : CallerPC
  issueCount : ℕ
deriving DecidableEq

/-- One atomic step of one `GetInvoice` caller; the three steps are
exactly the code's atomic units: the mutex-protected read plus the local
liveness test, the unlocked external issuance call (the `n`-th issuance
returns payment request `refs n`), and the mutex-protected double store.
The steps of the two callers may interleave arbitrarily. -/
def callerStep (key : InvoiceKey) (now : ℤ) (refs : ℕ → String) :
    CallerPC → InvoiceCache → ℕ → CallerPC × InvoiceCache × ℕ
  | CallerPC.start, c, n =>
    ((match lookupAL c.keyToInvoice key with
      | some inv =>
        if inv.Expiry > now then CallerPC.done inv else CallerPC.needIssue
      | none => CallerPC.needIssue), c, n)
  | CallerPC.needIssue, c, n => (CallerPC.gotResp (refs n), c, n + 1)
  | CallerPC.gotResp r, c, n =>
    (CallerPC.done ⟨r, now + 300⟩,
     ⟨insertAL c.keyToInvoice key ⟨r, now + 300⟩,
      insertAL c.invoiceToKey r key⟩, n)
  | CallerPC.done v, c, n => (CallerPC.done v, c, n)

/-- Run one step of the chosen caller (`false` = caller 1, `true` =
caller 2) on the shared race state. -/
def raceStep (key : InvoiceKey) (now : ℤ) (refs : ℕ → String) (who : Bool)
    (s : RaceState) : RaceState :=
  if who then
    ⟨(callerStep key now refs s.pc2 s.cache s.issueCount).2.1, s.pc1,
     (callerStep key now refs s.pc2 s.cache s.issueCount).1,
     (callerStep key now refs s.pc2 s.cache s.issueCount).2.2⟩
  else
    ⟨(callerStep key now refs s.pc1 s.cache s.issueCount).2.1,
     (callerStep key now refs s.pc1 s.cache s.issueCount).1, s.pc2,
     (callerStep key now refs s.pc1 s.cache s.issueCount).2.2⟩

/-- Run a schedule (an arbitrary interleaving of the two callers'
steps). -/
def runRace (key : InvoiceKey) (now : ℤ) (refs : ℕ → String) :
    List Bool → RaceState → RaceState
  | [], s => s
  | w :: ws, s => runRace key now refs ws (raceStep key now refs w s)

/-- The `B1` zone of `parking/zone.go` (`{"B1", 1.0, 6}`). -/
def zoneB1 : Zone := ⟨"B1", 1, 6⟩

/-- Concrete fingerprint for witnesses, the spec section 8 scenario
`{zone:"B1", plate:"Z1", hours:1}`. -/
def k0 : InvoiceKey := ⟨zoneB1, "Z1", 1⟩

/-- Concrete invoice with reference `"r0"` expiring at time 300. -/
def inv0 : Invoice := ⟨"r0", 300⟩

/-- Concrete cache holding exactly the `k0 ↦ inv0` issuance. -/
def c0 : InvoiceCache := ⟨[(k0, inv0)], [("r0", k0)]⟩

/-- The empty cache, as built by `InitHandler`. -/
def cE : InvoiceCache := ⟨[], []⟩

/-- Concrete lnd issuance response with payment request `"r0"`. -/
def rpc0 : RpcInvoice := ⟨"r0", 0, 300, "OPEN"⟩

/-- Concrete lnd issuance response with payment request `"r1"`. -/
def rpc1 : RpcInvoice := ⟨"r1", 300, 300, "OPEN"⟩

/-- Cache after re-issuing for the fingerprint `k0` at time 300 (when
`inv0` has just expired but its reaper has not yet fired): `GetInvoice`
overwrites the forward entry with the new invoice `"r1"` and adds
`"r1" ↦ k0` to the reverse map, leaving the stale `"r0" ↦ k0` reverse
entry in place. -/
def c1 : InvoiceCache :=
  (GetInvoice c0 zoneB1 "Z1" 1 300 1 (IssueOutcome.ok rpc1)).cache

/-- Cache after the stale reaper for `"r0"` fires on `c1`. -/
def c2 : InvoiceCache := (reaperFire c1 "r0").1

/-- Issuance responses for the race demonstration: the `n`-th issuance
returns payment request `"r" ++ toString n`. -/
def refsDemo : ℕ → String := fun n => "r" ++ toString n

/-- Both callers at `start` on the empty cache, no issuance yet. -/
def raceInit : RaceState := ⟨cE, CallerPC.start, CallerPC.start, 0⟩

/-- The interleaving check‖check‖issue‖issue‖store‖store of two
concurrent `GetInvoice` callers for the fingerprint `k0` at time 0. -/
def raceFinal : RaceState :=
  runRace k0 0 refsDemo [false, true, false, true, false, true] raceInit

theorem lookupAL_eraseAL {α β : Type} [DecidableEq α] (l : List (α × β))
    (k x : α) : lookupAL (eraseAL l k) x = if x = k then none else lookupAL l x := by
  induction l with
  | nil => simp [eraseAL, lookupAL]
  | cons hd tl ih =>
    obtain ⟨a, b⟩ := hd
    by_cases hak : a = k <;> by_cases hxa : x = a <;> by_cases hxk : x = k <;>
      simp_all [eraseAL, lookupAL]

theorem lookupAL_insertAL {α β : Type} [DecidableEq α] (l : List (α × β))
    (k x : α) (v : β) :
    lookupAL (insertAL l k v) x = if x = k then some v else lookupAL l x := by
  by_cases hx : x = k <;> simp [insertAL, lookupAL, lookupAL_eraseAL, hx]

theorem mirror_single (k : InvoiceKey) (inv : Invoice) :
    Mirror ⟨[(k, inv)], [(inv.PaymentRequest, k)]⟩ := by
  intro f r
  simp only [lookupAL]
  constructor
  · rintro ⟨i, hi, hp⟩
    by_cases hf : f = k
    · rw [if_pos hf] at hi
      have hinv : inv = i := Option.some.inj hi
      have hc : r = inv.PaymentRequest := by rw [hinv, hp]
      rw [if_pos hc, hf]
    · rw [if_neg hf] at hi
      exact Option.noConfusion hi
  · intro h
    by_cases hr : r = inv.PaymentRequest
    · rw [if_pos hr] at h
      have hk : k = f := Option.some.inj h
      refine ⟨inv, ?_, hr.symm⟩
      rw [if_pos hk.symm]
    · rw [if_neg hr] at h
      exact Option.noConfusion h

theorem goInt64_nonneg (q : ℚ) (h : 0 ≤ q) : 0 ≤ goInt64 q := by
  unfold goInt64
  exact Int.tdiv_nonneg (Rat.num_nonneg.mpr h) (Int.natCast_nonneg q.den)

theorem getParkingFee_nonneg (z : Zone) (hours : ℤ) (hp : 0 ≤ z.Price)
    (hh : 0 ≤ (hours : ℚ)) (hm : 0 ≤ z.MaxTime) :
    0 ≤ z.GetParkingFee hours := by
  unfold Zone.GetParkingFee
  split_ifs with h
  · exact mul_nonneg hh hp
  · exact mul_nonneg hm hp

theorem getSatsToPay_not_neg (k : InvoiceKey) (btcPrice : ℚ)
    (hb : ¬ btcPrice < 0) (hfee : 0 ≤ k.Zone.GetParkingFee k.Hours) :
    ¬ k.GetSatsToPay btcPrice < 0 := by
  unfold InvoiceKey.GetSatsToPay
  rw [if_neg hb]
  have h0 : 0 ≤ k.Zone.GetParkingFee k.Hours / btcPrice * (1 / 100000000 : ℚ) :=
    mul_nonneg (div_nonneg hfee (not_lt.mp hb)) (by norm_num)
  have h1 := goInt64_nonneg _ h0
  omega

theorem getInvoice_hit (c : InvoiceCache) (zone : Zone) (plate : String)
    (hours now : ℤ) (btcPrice : ℚ) (issue : IssueOutcome) (inv : Invoice)
    (hF : lookupAL c.keyToInvoice ⟨zone, plate, hours⟩ = some inv)
    (hlive : inv.Expiry > now) :
    GetInvoice c zone plate hours now btcPrice issue =
      GetInvoiceResult.ret inv c none := by
  unfold GetInvoice
  rw [hF]
  simp [hlive]

theorem getInvoice_stale (c : InvoiceCache) (zone : Zone) (plate : String)
    (hours now : ℤ) (btcPrice : ℚ) (resp : RpcInvoice)
    (hmiss : ∀ inv, lookupAL c.keyToInvoice ⟨zone, plate, hours⟩ = some inv →
      inv.Expiry ≤ now)
    (hsats : ¬ InvoiceKey.GetSatsToPay ⟨zone, plate, hours⟩ btcPrice < 0) :
    GetInvoice c zone plate hours now btcPrice (IssueOutcome.ok resp) =
      GetInvoiceResult.ret ⟨resp.PaymentRequest, now + 300⟩
        ⟨insertAL c.keyToInvoice ⟨zone, plate, hours⟩
           ⟨resp.PaymentRequest, now + 300⟩,
         insertAL c.invoiceToKey resp.PaymentRequest ⟨zone, plate, hours⟩⟩
        (some resp.PaymentRequest) := by
  unfold GetInvoice
  cases hF : lookupAL c.keyToInvoice ⟨zone, plate, hours⟩ with
  | none => simp [GetInvoiceIssue, hsats]
  | some inv =>
    have hns : ¬ inv.Expiry > now := not_lt.mpr (hmiss inv hF)
    simp [hns, GetInvoiceIssue, hsats]

theorem getInvoice_priceFail (c : InvoiceCache) (zone : Zone) (plate : String)
    (hours now : ℤ) (btcPrice : ℚ) (issue : IssueOutcome)
    (hmiss : ∀ inv, lookupAL c.keyToInvoice ⟨zone, plate, hours⟩ = some inv →
      inv.Expiry ≤ now)
    (hsats : InvoiceKey.GetSatsToPay ⟨zone, plate, hours⟩ btcPrice < 0) :
    GetInvoice c zone plate hours now btcPrice issue =
      GetInvoiceResult.ret ⟨"", 0⟩ c none := by
  unfold GetInvoice
  cases hF : lookupAL c.keyToInvoice ⟨zone, plate, hours⟩ with
  | none => simp [GetInvoiceIssue, hsats]
  | some inv =>
    have hns : ¬ inv.Expiry > now := not_lt.mpr (hmiss inv hF)
    simp [hns, GetInvoiceIssue, hsats]

theorem sats_k0_not_neg : ¬ InvoiceKey.GetSatsToPay ⟨zoneB1, "Z1", 1⟩ 1 < 0 := by
  refine getSatsToPay_not_neg _ 1 (by norm_num) ?_
  exact getParkingFee_nonneg zoneB1 1 (by norm_num [zoneB1]) (by norm_num)
    (by norm_num [zoneB1])

theorem c1_eq : c1 = ⟨[(k0, ⟨"r1", 600⟩)], [("r1", k0), ("r0", k0)]⟩ := by
  have hmiss : ∀ inv, lookupAL c0.keyToInvoice ⟨zoneB1, "Z1", 1⟩ = some inv →
      inv.Expiry ≤ 300 := by
    intro inv h
    have h0 : lookupAL c0.keyToInvoice ⟨zoneB1, "Z1", 1⟩ = some inv0 := by decide
    rw [h0] at h
    have : inv0 = inv := Option.some.inj h
    rw [← this]
    decide
  show (GetInvoice c0 zoneB1 "Z1" 1 300 1 (IssueOutcome.ok rpc1)).cache = _
  rw [getInvoice_stale c0 zoneB1 "Z1" 1 300 1 rpc1 hmiss sats_k0_not_neg]
  decide

/-- C1: the concurrency contract "at most one issuance in flight per
fingerprint; concurrent `getOrCreate` callers return the same record and
the issuer is invoked exactly once" fails on the code as written: in the
interleaving where both callers perform the locked cache read before
either issues, the lnd issuer is invoked twice and the two callers return
records with different external references. -/
theorem C1_concurrent_double_issue :
    raceFinal.issueCount = 2 ∧
    raceFinal.pc1 = CallerPC.done ⟨"r0", 300⟩ ∧
    raceFinal.pc2 = CallerPC.done ⟨"r1", 300⟩ ∧
    ("r0" : String) ≠ "r1" := by
  refine ⟨by decide, by decide, by decide, by decide⟩

/-- C3: the mirror invariant is not preserved by every operation: starting
from the mirrored one-entry cache `c0`, re-issuing for the same
fingerprint at time 300 (entry expired, reaper not yet fired) stores the
new record over the forward entry but leaves the stale reverse entry
`"r0" ↦ k0`, after which `invoiceToKey "r0" = k0` while
`keyToInvoice k0` holds reference `"r1"` — the biconditional fails. -/
theorem C3_reissue_mirror_broken :
    Mirror c0 ∧
    lookupAL c1.invoiceToKey "r0" = some k0 ∧
    lookupAL c1.keyToInvoice k0 = some ⟨"r1", 600⟩ ∧
    ¬ Mirror c1 := by
  rw [c1_eq]
  refine ⟨mirror_single k0 inv0, by decide, by decide, ?_⟩
  intro h
  obtain ⟨inv, hF, hp⟩ := (h k0 "r0").mpr (by decide)
  have h2 :
      lookupAL
        (InvoiceCache.mk [(k0, ⟨"r1", 600⟩)] [("r1", k0), ("r0", k0)]).keyToInvoice
        k0 = some ⟨"r1", 600⟩ := by decide
  rw [h2] at hF
  have h3 : (⟨"r1", 600⟩ : Invoice) = inv := Option.some.inj hF
  rw [← h3] at hp
  exact absurd hp (by decide)

/-- C4: the TTL reaper does remove a record replaced by a newer issuance:
on the post-re-issuance cache `c1` (forward `k0 ↦ ("r1", 600)`, stale
reverse entry `"r0" ↦ k0`), the old reaper for `"r0"` finds its reference
in the reverse map and deletes `keyToInvoice[k0]`, destroying the newer
`"r1"` record, which is left dangling in the reverse map. -/
theorem C4_reaper_kills_reissued :
    lookupAL c1.keyToInvoice k0 = some ⟨"r1", 600⟩ ∧
    (reaperFire c1 "r0").2 = true ∧
    lookupAL c2.keyToInvoice k0 = none ∧
    lookupAL c2.invoiceToKey "r1" = some k0 := by
  have hc2 : c2 = (reaperFire c1 "r0").1 := rfl
  rw [hc2, c1_eq]
  refine ⟨by decide, by decide, by decide, by decide⟩

/-- C5 counterexample: `CheckInvoice` is the negation of the spec's
`isLive`: on the cache `c0` holding the pending entry `"r0"` it returns
`false`, and on a reference that never existed it returns `true` —
opposite to the claim on both sides. -/
theorem C5_check_invoice_inverted :
    lookupAL c0.invoiceToKey "r0" = some k0 ∧
    CheckInvoice c0 "r0" = false ∧
    CheckInvoice c0 "nope" = true := by
  refine ⟨by decide, by decide, by decide⟩

/-- C5 amended: `CheckInvoice` returns `true` exactly when the reference
has no entry in the reverse map — i.e. it is the negation of the spec's
`isLive` (its HTTP caller exposes the value as `isPaid`): pending
references yield `false`; never-issued, reaped, or settled references
yield `true`. -/
theorem C5_check_invoice_semantics (c : InvoiceCache) (pr : String) :
    CheckInvoice c pr = true ↔ lookupAL c.invoiceToKey pr = none := by
  simp [CheckInvoice, Option.isNone_iff_eq_none]

theorem getInvoice_fatal (c : InvoiceCache) (zone : Zone) (plate : String)
    (hours now : ℤ) (btcPrice : ℚ)
    (hmiss : ∀ inv, lookupAL c.keyToInvoice ⟨zone, plate, hours⟩ = some inv →
      inv.Expiry ≤ now)
    (hsats : ¬ InvoiceKey.GetSatsToPay ⟨zone, plate, hours⟩ btcPrice < 0) :
    GetInvoice c zone plate hours now btcPrice IssueOutcome.fatal =
      GetInvoiceResult.fatalStop c := by
  unfold GetInvoice
  cases hF : lookupAL c.keyToInvoice ⟨zone, plate, hours⟩ with
  | none => simp [GetInvoiceIssue, hsats]
  | some inv =>
    have hns : ¬ inv.Expiry > now := not_lt.mpr (hmiss inv hF)
    simp [hns, GetInvoiceIssue, hsats]

/-- C2: of the two racing destruction triggers for a cached reference —
the settled-event critical section and the TTL reaper — exactly one
performs the resolve side-effect and the other observes not-found and
changes nothing, in either execution order; `sms.Send` fires at most once
(exactly once when settlement wins the race, never when the reaper does),
and the reference ends absent from both maps. -/
theorem C2_settle_ttl_race (c : InvoiceCache) (k : InvoiceKey) (ref : String)
    (hm : Mirror c) (hrev : lookupAL c.invoiceToKey ref = some k) :
    ((settleResolve c ref).2 = some k.Message ∧
     (reaperFire (settleResolve c ref).1 ref).2 = false ∧
     (reaperFire (settleResolve c ref).1 ref).1 = (settleResolve c ref).1 ∧
     RefGone (settleResolve c ref).1 ref) ∧
    ((reaperFire c ref).2 = true ∧
     (settleResolve (reaperFire c ref).1 ref).2 = none ∧
     (settleResolve (reaperFire c ref).1 ref).1 = (reaperFire c ref).1 ∧
     RefGone (reaperFire c ref).1 ref) := by
  have hs : settleResolve c ref =
      (⟨eraseAL c.keyToInvoice k, eraseAL c.invoiceToKey ref⟩, some k.Message) := by
    simp [settleResolve, hrev]
  have hr : reaperFire c ref =
      (⟨eraseAL c.keyToInvoice k, eraseAL c.invoiceToKey ref⟩, true) := by
    simp [reaperFire, hrev]
  have hnone : lookupAL (eraseAL c.invoiceToKey ref) ref = none := by
    rw [lookupAL_eraseAL, if_pos rfl]
  have hsf : settleResolve ⟨eraseAL c.keyToInvoice k, eraseAL c.invoiceToKey ref⟩ ref =
      (⟨eraseAL c.keyToInvoice k, eraseAL c.invoiceToKey ref⟩, none) := by
    simp [settleResolve, hnone]
  have hrf : reaperFire ⟨eraseAL c.keyToInvoice k, eraseAL c.invoiceToKey ref⟩ ref =
      (⟨eraseAL c.keyToInvoice k, eraseAL c.invoiceToKey ref⟩, false) := by
    simp [reaperFire, hnone]
  have hgone : RefGone ⟨eraseAL c.keyToInvoice k, eraseAL c.invoiceToKey ref⟩ ref := by
    constructor
    · exact hnone
    · intro f inv h hc
      have h2 : lookupAL (eraseAL c.keyToInvoice k) f = some inv := h
      rw [lookupAL_eraseAL] at h2
      by_cases hfk : f = k
      · rw [if_pos hfk] at h2
        exact Option.noConfusion h2
      · rw [if_neg hfk] at h2
        have hx := (hm f ref).mp ⟨inv, h2, hc⟩
        rw [hrev] at hx
        exact hfk (Option.some.inj hx).symm
  refine ⟨⟨?_, ?_, ?_, ?_⟩, ?_, ?_, ?_, ?_⟩
  · rw [hs]
  · rw [hs, hrf]
  · rw [hs, hrf]
  · rw [hs]
    exact hgone
  · rw [hr]
  · rw [hr, hsf]
  · rw [hr, hsf]
  · rw [hr]
    exact hgone

theorem C2_settle_ttl_race_witness :
    ((settleResolve c0 "r0").2 = some k0.Message ∧
     (reaperFire (settleResolve c0 "r0").1 "r0").2 = false ∧
     (reaperFire (settleResolve c0 "r0").1 "r0").1 = (settleResolve c0 "r0").1 ∧
     RefGone (settleResolve c0 "r0").1 "r0") ∧
    ((reaperFire c0 "r0").2 = true ∧
     (settleResolve (reaperFire c0 "r0").1 "r0").2 = none ∧
     (settleResolve (reaperFire c0 "r0").1 "r0").1 = (reaperFire c0 "r0").1 ∧
     RefGone (reaperFire c0 "r0").1 "r0") :=
  C2_settle_ttl_race c0 k0 "r0" (mirror_single k0 inv0) (by decide)

/-- C6 counterexample: when the lnd issuance sequence fails, `GetInvoice`
does not surface an error to its caller — it aborts the whole process via
`log.Fatalf` (result `fatalStop`), with the cache unchanged at that
point; the Go signature `GetInvoice(...) Invoice` has no error return at
all. -/
theorem C6_issue_failure_fatal :
    GetInvoice cE zoneB1 "Z1" 1 0 1 IssueOutcome.fatal =
      GetInvoiceResult.fatalStop cE :=
  getInvoice_fatal cE zoneB1 "Z1" 1 0 1
    (fun inv h => by simp [cE, lookupAL] at h) sats_k0_not_neg

/-- C6 amended: a failure of the issuance HTTP call, response read, or
JSON parse never mutates the cache — but instead of propagating an error
to the caller it terminates the process via `log.Fatalf` (and that is
the outcome whenever the issuance step is actually reached with a
non-negative fee). -/
theorem C6_issue_failure_no_mutation (c : InvoiceCache) (zone : Zone)
    (plate : String) (hours now : ℤ) (btcPrice : ℚ) :
    (GetInvoice c zone plate hours now btcPrice IssueOutcome.fatal).cache = c ∧
    ((∀ inv, lookupAL c.keyToInvoice ⟨zone, plate, hours⟩ = some inv →
        inv.Expiry ≤ now) →
      ¬ InvoiceKey.GetSatsToPay ⟨zone, plate, hours⟩ btcPrice < 0 →
      GetInvoice c zone plate hours now btcPrice IssueOutcome.fatal =
        GetInvoiceResult.fatalStop c) := by
  constructor
  · unfold GetInvoice GetInvoiceIssue
    cases hF : lookupAL c.keyToInvoice ⟨zone, plate, hours⟩ <;>
      simp only [GetInvoiceResult.cache] <;> split_ifs <;> rfl
  · intro h1 h2
    exact getInvoice_fatal c zone plate hours now btcPrice h1 h2

theorem C6_issue_failure_no_mutation_witness :
    (GetInvoice cE zoneB1 "Z1" 1 0 1 IssueOutcome.fatal).cache = cE ∧
    GetInvoice cE zoneB1 "Z1" 1 0 1 IssueOutcome.fatal =
      GetInvoiceResult.fatalStop cE :=
  ⟨(C6_issue_failure_no_mutation cE zoneB1 "Z1" 1 0 1).1,
   (C6_issue_failure_no_mutation cE zoneB1 "Z1" 1 0 1).2
     (fun inv h => by simp [cE, lookupAL] at h) sats_k0_not_neg⟩

/-- C7: a feed line on which `json.Unmarshal` fails is skipped — it
changes no state and sends nothing — and the read loop continues exactly
as if the line had not been there, so every subsequent well-formed
settled event is still processed normally. -/
theorem C7_malformed_skipped :
    (∀ c, processMsg c FeedMsg.malformed = (c, [])) ∧
    ∀ c pre post,
      RunInvoiceChecker c (pre ++ FeedMsg.malformed :: post) =
        RunInvoiceChecker c (pre ++ post) := by
  refine ⟨fun c => rfl, fun c pre post => ?_⟩
  induction pre generalizing c with
  | nil => simp [RunInvoiceChecker, processMsg]
  | cons m ms ih => simp only [List.cons_append, RunInvoiceChecker, List.append_eq, ih]

/-- C8: when a live (unexpired) record exists for the fingerprint,
`GetInvoice` returns it unchanged with no reaper scheduled and the cache
untouched; the result does not depend on `btcPrice` or on the issuance
outcome, so no external call is made. -/
theorem C8_live_hit (c : InvoiceCache) (zone : Zone) (plate : String)
    (hours now : ℤ) (btcPrice : ℚ) (issue : IssueOutcome) (inv : Invoice)
    (hF : lookupAL c.keyToInvoice ⟨zone, plate, hours⟩ = some inv)
    (hlive : inv.Expiry > now) :
    GetInvoice c zone plate hours now btcPrice issue =
      GetInvoiceResult.ret inv c none :=
  getInvoice_hit c zone plate hours now btcPrice issue inv hF hlive

theorem C8_live_hit_witness :
    GetInvoice c0 zoneB1 "Z1" 1 0 (-5) IssueOutcome.fatal =
      GetInvoiceResult.ret inv0 c0 none :=
  C8_live_hit c0 zoneB1 "Z1" 1 0 (-5) IssueOutcome.fatal inv0 (by decide)
    (by decide)

/-- C9: when no live record exists and the fee conversion succeeds,
`GetInvoice` consumes the issuer's response, stores the new record in
both mappings under one critical section, schedules the TTL reaper
carrying the new payment request (the fixed 300 s validity window), and
returns the new record with expiry `now + 300`. -/
theorem C9_issue_path (c : InvoiceCache) (zone : Zone) (plate : String)
    (hours now : ℤ) (btcPrice : ℚ) (resp : RpcInvoice)
    (hmiss : ∀ inv, lookupAL c.keyToInvoice ⟨zone, plate, hours⟩ = some inv →
      inv.Expiry ≤ now)
    (hsats : ¬ InvoiceKey.GetSatsToPay ⟨zone, plate, hours⟩ btcPrice < 0) :
    GetInvoice c zone plate hours now btcPrice (IssueOutcome.ok resp) =
      GetInvoiceResult.ret ⟨resp.PaymentRequest, now + 300⟩
        ⟨insertAL c.keyToInvoice ⟨zone, plate, hours⟩
           ⟨resp.PaymentRequest, now + 300⟩,
         insertAL c.invoiceToKey resp.PaymentRequest ⟨zone, plate, hours⟩⟩
        (some resp.PaymentRequest) :=
  getInvoice_stale c zone plate hours now btcPrice resp hmiss hsats

theorem C9_issue_path_witness :
    GetInvoice cE zoneB1 "Z1" 1 0 1 (IssueOutcome.ok rpc0) =
      GetInvoiceResult.ret ⟨"r0", 300⟩
        ⟨insertAL cE.keyToInvoice ⟨zoneB1, "Z1", 1⟩ ⟨"r0", 300⟩,
         insertAL cE.invoiceToKey "r0" ⟨zoneB1, "Z1", 1⟩⟩ (some "r0") :=
  C9_issue_path cE zoneB1 "Z1" 1 0 1 rpc0
    (fun inv h => by simp [cE, lookupAL] at h) sats_k0_not_neg

/-- C10: when the BTC price lookup failed (`GetPrice` returned a negative
sentinel, so `GetSatsToPay` returns `-1`) and no live record exists,
`GetInvoice` returns the zero-value `Invoice{}` (empty payment request,
expiry 0) with no error and both cache maps untouched. -/
theorem C10_price_failure_zero (c : InvoiceCache) (zone : Zone)
    (plate : String) (hours now : ℤ) (btcPrice : ℚ) (issue : IssueOutcome)
    (hmiss : ∀ inv, lookupAL c.keyToInvoice ⟨zone, plate, hours⟩ = some inv →
      inv.Expiry ≤ now)
    (hneg : btcPrice < 0) :
    GetInvoice c zone plate hours now btcPrice issue =
      GetInvoiceResult.ret ⟨"", 0⟩ c none := by
  refine getInvoice_priceFail c zone plate hours now btcPrice issue hmiss ?_
  unfold InvoiceKey.GetSatsToPay
  rw [if_pos hneg]
  norm_num

theorem C10_price_failure_zero_witness :
    GetInvoice cE zoneB1 "Z1" 1 0 (-1) IssueOutcome.fatal =
      GetInvoiceResult.ret ⟨"", 0⟩ cE none :=
  C10_price_failure_zero cE zoneB1 "Z1" 1 0 (-1) IssueOutcome.fatal
    (fun inv h => by simp [cE, lookupAL] at h) (by norm_num)
